import Mathlib

/-! TurtleCore ROM programmer (`src/ROM_programmer/main.cpp`)

A shallow embedding of the ROM image generator: the control-line constants,
the `REV16_A` byte-swap macro, the fill loop, the byte-swap loop and the raw
write of the buffer to `out.bin`.

Conventions of the embedding

* `uint16_t`, `unsigned int` and `size_t` values are natural numbers, reduced
  modulo `2 ^ 16`, `2 ^ 32` and `2 ^ 64` where the C++ code converts or wraps;
* the promoted `int` in which `REV16_A` is evaluated is a mathematical integer,
  and the theorems state separately that it stays inside the 32-bit range;
* the buffer `data` is a list of cells; its initial contents (what `malloc`
  hands back) are an input of `main`;
* the outcome of opening and writing `out.bin` is an input of `main`.
-/

namespace ROMProgrammer

/-! ## Control-line constants (main.cpp, lines 7-21) -/

/-- Macro `#define HLT  0b1000000000000000` -/
def HLT : Nat := 0b1000000000000000
/-- Macro `#define MI   0b010000000000000` (fifteen binary digits in the source) -/
def MI : Nat := 0b010000000000000
/-- Macro `#define RI   0b0010000000000000` -/
def RI : Nat := 0b0010000000000000
/-- Macro `#define RO   0b0001000000000000` -/
def RO : Nat := 0b0001000000000000
/-- Macro `#define IO   0b0000100000000000`; the name carries a trailing
underscore because the bare one is taken in Lean. -/
def IO_ : Nat := 0b0000100000000000
/-- Macro `#define II   0b0000010000000000` -/
def II : Nat := 0b0000010000000000
/-- Macro `#define AI   0b0000001000000000` -/
def AI : Nat := 0b0000001000000000
/-- Macro `#define AO   0b0000000100000000` -/
def AO : Nat := 0b0000000100000000
/-- Macro `#define ALUO 0b0000000001000000` -/
def ALUO : Nat := 0b0000000001000000
/-- Macro `#define SU   0b0000000000100000` -/
def SU : Nat := 0b0000000000100000
/-- Macro `#define BI   0b0000000000010000` -/
def BI : Nat := 0b0000000000010000
/-- Macro `#define BO   0b0000000000001000` -/
def BO : Nat := 0b0000000000001000
/-- Macro `#define CE   0b0000000000000100` -/
def CE : Nat := 0b0000000000000100
/-- Macro `#define CO   0b0000000000000010` -/
def CO : Nat := 0b0000000000000010
/-- Macro `#define JUMP 0b0000000000000001` -/
def JUMP : Nat := 0b0000000000000001

/-- The fifteen constants in source order, each with its name. -/
def controlLines : List (String × Nat) :=
  [("HLT", HLT), ("MI", MI), ("RI", RI), ("RO", RO), ("IO", IO_), ("II", II),
   ("AI", AI), ("AO", AO), ("ALUO", ALUO), ("SU", SU), ("BI", BI), ("BO", BO),
   ("CE", CE), ("CO", CO), ("JUMP", JUMP)]

/-! ## Machine integers -/

/-- Number of value bits of `unsigned int` on the host. -/
def UINT_BITS : Nat := 32

/-- Number of value bits of `size_t` on the host. -/
def SIZE_BITS : Nat := 64

/-- Largest value of a 32-bit `int`. -/
def INT_MAX : Int := 2 ^ 31 - 1

/-- Smallest value of a 32-bit `int`. -/
def INT_MIN : Int := -(2 ^ 31)

/-- Conversion to `unsigned int`: reduction modulo `2 ^ 32`. -/
def toUnsigned (x : Nat) : Nat := x % 2 ^ UINT_BITS

/-- Conversion to `size_t`: reduction modulo `2 ^ 64`. -/
def toSizeT (x : Nat) : Nat := x % 2 ^ SIZE_BITS

/-- Conversion of an `int` to `uint16_t`: reduction modulo `2 ^ 16`. -/
def toUint16 (x : Int) : Nat := (x % 65536).toNat

/-- Value of `sizeof(uint16_t)`. -/
def sizeof_uint16_t : Nat := 2

/-! ## The byte-swap macro (main.cpp, line 23) -/

/-- Macro `#define REV16_A(X) (((X) << 8) | ((X)>>8))`, on the promoted `int` operand:
`<<` and `>>` are the shifts of the integers (`>>` is the arithmetic shift, which
keeps the sign) and `|` is the bitwise or. -/
def REV16_A (X : Int) : Int := Int.lor (X <<< (8 : Int)) (X >>> (8 : Nat))

/-- The right-hand side of `data[i] = REV16_A(data[i])` for a cell holding `v`:
the cell is promoted to `int`, the macro is evaluated, and the result is
converted back to `uint16_t`. -/
def swapCell (v : Nat) : Nat := toUint16 (REV16_A (v : Int))

/-- The numeric semantics the specification gives for the byte swap of a 16-bit
unsigned value: `((v << 8) | (v >> 8)) & 0xFFFF`, on natural numbers. -/
def rev16_spec (v : Nat) : Nat := ((v <<< 8) ||| (v >>> 8)) &&& 0xFFFF

/-! ## The two loops of `main` (main.cpp, lines 35-41) -/

/-- State threaded through a loop of `main`: the buffer `data` points to, one
entry per `uint16_t` cell, and the record `visited` of the counter values at
which the loop body has run, in order (a body accesses `data[i]` for the current
counter value `i` and nothing else). -/
structure LoopState where
  /-- The cells of the buffer. -/
  data : List Nat
  /-- Counter values of the iterations executed so far. -/
  visited : List Nat
  deriving DecidableEq, Repr

/-- Loop `for(unsigned int i = 0; i < ROM_size; i++){ data[i] = 0x1234; }`
entered with counter value `i`. The bound `n` is the `unsigned int` `ROM_size`, hence
below `2 ^ 32`; `i++` wraps modulo `2 ^ 32`. -/
def fillLoop (n : Nat) (hn : n < 2 ^ UINT_BITS) (i : Nat) (s : LoopState) : LoopState :=
  if _h : i < n then
    fillLoop n hn ((i + 1) % 2 ^ UINT_BITS) ⟨s.data.set i 0x1234, s.visited ++ [i]⟩
  else
    s
termination_by n - i
decreasing_by
  have hw : (i + 1) % 2 ^ UINT_BITS = i + 1 := Nat.mod_eq_of_lt (by omega)
  rw [hw]
  omega

/-- Loop `for(unsigned int i = 0; i < ROM_size; i++){ data[i] = REV16_A(data[i]); }`
entered with counter value `i`; same conventions as `fillLoop`. -/
def swapLoop (n : Nat) (hn : n < 2 ^ UINT_BITS) (i : Nat) (s : LoopState) : LoopState :=
  if _h : i < n then
    swapLoop n hn ((i + 1) % 2 ^ UINT_BITS)
      ⟨s.data.set i (swapCell (s.data.getD i 0)), s.visited ++ [i]⟩
  else
    s
termination_by n - i
decreasing_by
  have hw : (i + 1) % 2 ^ UINT_BITS = i + 1 := Nat.mod_eq_of_lt (by omega)
  rw [hw]
  omega

/-! ## Sizes (main.cpp, lines 28-30) -/

/-- Declaration `char ROMaddr_size = 16;`. -/
def ROMaddr_size : Nat := 16

/-- Call `pow(2, ROMaddr_size)`: the floating-point power, here of two small integers
whose result is a power of two far below `2 ^ 53`, is exact and is taken as the
integer power. -/
def pow (b e : Nat) : Nat := b ^ e

/-- Declaration `unsigned int ROM_size = (unsigned int) pow(2, ROMaddr_size);`. -/
def ROM_size : Nat := toUnsigned (pow 2 ROMaddr_size)

/-- Declaration `size_t data_size = ROM_size * sizeof(uint16_t);`. -/
def data_size : Nat := toSizeT (ROM_size * sizeof_uint16_t)

/-! ## Writing the buffer (main.cpp, lines 43-45) -/

/-- Byte order of the host that runs the program. -/
inductive Endian where
  | little
  | big
  deriving DecidableEq, Repr

/-- The byte at offset `k` (0 or 1) of the in-memory representation of a
`uint16_t` cell. -/
def cellByte (host : Endian) (cell k : Nat) : Nat :=
  match host with
  | .little => if k = 0 then cell % 256 else cell / 256 % 256
  | .big => if k = 0 then cell / 256 % 256 else cell % 256

/-- The `count` bytes that `file.write((char*)data, count)` hands to the stream:
byte `k` is byte `k % 2` of cell `k / 2`. -/
def rawBytes (host : Endian) (data : List Nat) (count : Nat) : List Nat :=
  (List.range count).map fun k => cellByte host (data.getD (k / sizeof_uint16_t) 0) (k % sizeof_uint16_t)

/-- What happens to `out.bin`: the open fails, the open succeeds and the write
fails, or both succeed. -/
inductive FileOutcome where
  | openFails
  | writeFails
  | succeeds
  deriving DecidableEq, Repr

/-- Observable result of a completed run. -/
structure Run where
  /-- Lines printed on standard output, each ended by `endl`. -/
  stdout : List String
  /-- Lines printed on standard error. -/
  stderr : List String
  /-- Bytes passed to `file.write`. -/
  written : List Nat
  /-- Contents of `out.bin` when the open and the write succeeded. -/
  file : Option (List Nat)
  /-- Value returned by `main`. -/
  status : Int

/-! ## `main` (main.cpp, lines 27-48) -/

/-- The state after the fill loop, run from counter 0 on the freshly allocated
buffer with contents `init`. -/
def afterFill (init : List Nat) : LoopState :=
  fillLoop ROM_size (Nat.mod_lt _ (by decide)) 0 ⟨init, []⟩

/-- The state after the byte-swap loop, run from counter 0 on the buffer the
fill loop leaves. -/
def afterSwap (init : List Nat) : LoopState :=
  swapLoop ROM_size (Nat.mod_lt _ (by decide)) 0 ⟨(afterFill init).data, []⟩

/-- Function `int main(int, char**)`, as a function of the host byte order, of the
contents `init` of the freshly allocated buffer and of the outcome of the file
operations. The program never tests the stream state, prints nothing but the
two size lines, and ends in `return 0`. -/
def main (host : Endian) (init : List Nat) (outcome : FileOutcome) : Run :=
  let line1 := "ROM adress size (bits): " ++ toString ROM_size
  let line2 := "Size of data (bits): " ++ toString data_size
  let data := (afterSwap init).data
  let bytes := rawBytes host data data_size
  { stdout := [line1, line2]
    stderr := []
    written := bytes
    file := match outcome with
      | .succeeds => some bytes
      | .openFails => none
      | .writeFails => none
    status := 0 }


/-! ## Arithmetic of the byte swap -/

theorem swapCell_eq_bits (v : Nat) :
    swapCell v = ((v <<< 8) ||| (v >>> 8)) % 65536 := by
  unfold swapCell REV16_A toUint16
  have hs : ((v : Int) <<< (8 : Int)) = ((v <<< 8 : Nat) : Int) := Int.shiftLeft_coe_nat v 8
  rw [hs]
  show ((((v <<< 8 ||| v >>> 8 : Nat) : Int)) % 65536).toNat = _
  generalize v <<< 8 ||| v >>> 8 = x
  omega

theorem or_shifts_eq (v : Nat) (hv : v < 65536) :
    (v <<< 8) ||| (v >>> 8) = 256 * v + v / 256 := by
  have h1 : v <<< 8 = 2 ^ 8 * v := by rw [Nat.shiftLeft_eq, Nat.mul_comm]
  have h2 : v >>> 8 = v / 256 := by rw [Nat.shiftRight_eq_div_pow]
  have h3 : v / 256 < 2 ^ 8 := by omega
  rw [h1, h2, ← Nat.mul_add_lt_is_or h3]

theorem swapCell_eq (v : Nat) (hv : v < 65536) :
    swapCell v = 256 * (v % 256) + v / 256 := by
  rw [swapCell_eq_bits, or_shifts_eq v hv]
  omega

/-! ## The loops -/

theorem wrap_succ {n i : Nat} (hn : n < 2 ^ UINT_BITS) (h : i < n) :
    (i + 1) % 2 ^ UINT_BITS = i + 1 :=
  Nat.mod_eq_of_lt (by omega)

theorem fillLoop_getElem? (n : Nat) (hn : n < 2 ^ UINT_BITS) :
    ∀ (k i : Nat) (s : LoopState), n - i = k → ∀ j : Nat,
      (fillLoop n hn i s).data[j]? =
        if i ≤ j ∧ j < n ∧ j < s.data.length then some 0x1234 else s.data[j]? := by
  intro k
  induction k with
  | zero =>
    intro i s hk j
    rw [fillLoop]
    have hi : ¬ i < n := by omega
    rw [dif_neg hi]
    have : ¬ (i ≤ j ∧ j < n ∧ j < s.data.length) := by omega
    rw [if_neg this]
  | succ k ih =>
    intro i s hk j
    rw [fillLoop]
    have hi : i < n := by omega
    rw [dif_pos hi, wrap_succ hn hi, ih (i + 1) _ (by omega) j]
    simp only [List.length_set, List.getElem?_set]
    by_cases hji : i = j
    · subst hji
      by_cases hl : i < s.data.length
      · simp [hl, hi]
      · have : s.data[i]? = none := List.getElem?_eq_none (by omega)
        simp [hl, this]
    · by_cases h1 : i + 1 ≤ j ∧ j < n ∧ j < s.data.length
      · have h2 : i ≤ j ∧ j < n ∧ j < s.data.length := by omega
        simp [h1, h2]
      · have h2 : ¬ (i ≤ j ∧ j < n ∧ j < s.data.length) := by omega
        simp [h1, h2, hji]

theorem swapLoop_getElem? (n : Nat) (hn : n < 2 ^ UINT_BITS) :
    ∀ (k i : Nat) (s : LoopState), n - i = k → ∀ j : Nat,
      (swapLoop n hn i s).data[j]? =
        if i ≤ j ∧ j < n then s.data[j]?.map swapCell else s.data[j]? := by
  intro k
  induction k with
  | zero =>
    intro i s hk j
    rw [swapLoop]
    have hi : ¬ i < n := by omega
    rw [dif_neg hi]
    have : ¬ (i ≤ j ∧ j < n) := by omega
    rw [if_neg this]
  | succ k ih =>
    intro i s hk j
    rw [swapLoop]
    have hi : i < n := by omega
    rw [dif_pos hi, wrap_succ hn hi, ih (i + 1) _ (by omega) j]
    simp only [List.getElem?_set]
    by_cases hji : i = j
    · subst hji
      by_cases hl : i < s.data.length
      · simp [hl, hi, List.getD_eq_getElem?_getD, List.getElem?_eq_getElem hl]
      · have : s.data[i]? = none := List.getElem?_eq_none (by omega)
        simp [hl, this]
    · by_cases h1 : i + 1 ≤ j ∧ j < n
      · have h2 : i ≤ j ∧ j < n := by omega
        simp [h1, h2, hji]
      · have h2 : ¬ (i ≤ j ∧ j < n) := by omega
        simp [h1, h2, hji]

theorem fillLoop_replicate (n : Nat) (hn : n < 2 ^ UINT_BITS) (init : List Nat)
    (hlen : init.length = n) :
    (fillLoop n hn 0 ⟨init, []⟩).data = List.replicate n 0x1234 := by
  apply List.ext_getElem?
  intro j
  rw [fillLoop_getElem? n hn n 0 _ rfl j, List.getElem?_replicate]
  simp only [hlen]
  by_cases hj : j < n
  · simp [hj]
  · have : init[j]? = none := List.getElem?_eq_none (by omega)
    simp [hj, this]

theorem swapLoop_replicate (n : Nat) (hn : n < 2 ^ UINT_BITS) (c : Nat) :
    (swapLoop n hn 0 ⟨List.replicate n c, []⟩).data = List.replicate n (swapCell c) := by
  apply List.ext_getElem?
  intro j
  rw [swapLoop_getElem? n hn n 0 _ rfl j, List.getElem?_replicate]
  simp only [List.getElem?_replicate]
  by_cases hj : j < n
  · simp [hj]
  · simp [hj]

theorem swapCell_fill : swapCell 0x1234 = 0x3412 := by decide

theorem ROM_size_eq : ROM_size = 65536 := by decide

theorem data_size_eq : data_size = 131072 := by decide

theorem afterFill_data (init : List Nat) (hlen : init.length = ROM_size) :
    (afterFill init).data = List.replicate ROM_size 0x1234 := by
  unfold afterFill
  exact fillLoop_replicate ROM_size _ init hlen

theorem afterSwap_data (init : List Nat) (hlen : init.length = ROM_size) :
    (afterSwap init).data = List.replicate ROM_size 0x3412 := by
  unfold afterSwap
  rw [afterFill_data init hlen, swapLoop_replicate, swapCell_fill]

theorem cells_eq : data_size / sizeof_uint16_t = ROM_size := by decide

/-! ## The written stream -/

theorem rawBytes_length (host : Endian) (data : List Nat) (count : Nat) :
    (rawBytes host data count).length = count := by
  unfold rawBytes
  rw [List.length_map, List.length_range]

theorem rawBytes_getElem? (host : Endian) (data : List Nat) (count k : Nat)
    (hk : k < count) :
    (rawBytes host data count)[k]? =
      some (cellByte host (data.getD (k / sizeof_uint16_t) 0) (k % sizeof_uint16_t)) := by
  unfold rawBytes
  rw [List.getElem?_map, List.getElem?_range hk]
  rfl

theorem main_written (host : Endian) (init : List Nat) (outcome : FileOutcome) :
    (main host init outcome).written = rawBytes host (afterSwap init).data data_size := by
  simp only [main]

theorem main_stdout (host : Endian) (init : List Nat) (outcome : FileOutcome) :
    (main host init outcome).stdout =
      ["ROM adress size (bits): " ++ toString ROM_size,
       "Size of data (bits): " ++ toString data_size] := by
  simp only [main]

theorem replicate_getD (n c j : Nat) (hj : j < n) : (List.replicate n c).getD j 0 = c := by
  rw [List.getD_eq_getElem?_getD, List.getElem?_replicate, if_pos hj]
  rfl

theorem written_getElem? (host : Endian) (init : List Nat) (outcome : FileOutcome)
    (hlen : init.length = data_size / sizeof_uint16_t) (k : Nat) (hk : k < data_size) :
    (main host init outcome).written[k]? = some (cellByte host 0x3412 (k % 2)) := by
  rw [cells_eq] at hlen
  rw [main_written, rawBytes_getElem? host _ _ k hk, afterSwap_data init hlen]
  have hj : k / sizeof_uint16_t < ROM_size := by
    rw [data_size_eq] at hk
    rw [ROM_size_eq]
    show k / 2 < 65536
    omega
  rw [replicate_getD _ _ _ hj]
  rfl

/-! ## Iterations of the loops and values of the constants -/

theorem fillLoop_visited (n : Nat) (hn : n < 2 ^ UINT_BITS) :
    ∀ (k i : Nat) (s : LoopState), n - i = k →
      (fillLoop n hn i s).visited = s.visited ++ List.range' i k := by
  intro k
  induction k with
  | zero =>
    intro i s hk
    rw [fillLoop, dif_neg (by omega)]
    simp
  | succ k ih =>
    intro i s hk
    have hi : i < n := by omega
    rw [fillLoop, dif_pos hi, wrap_succ hn hi, ih (i + 1) _ (by omega)]
    simp [List.range'_succ]

theorem swapLoop_visited (n : Nat) (hn : n < 2 ^ UINT_BITS) :
    ∀ (k i : Nat) (s : LoopState), n - i = k →
      (swapLoop n hn i s).visited = s.visited ++ List.range' i k := by
  intro k
  induction k with
  | zero =>
    intro i s hk
    rw [swapLoop, dif_neg (by omega)]
    simp
  | succ k ih =>
    intro i s hk
    have hi : i < n := by omega
    rw [swapLoop, dif_pos hi, wrap_succ hn hi, ih (i + 1) _ (by omega)]
    simp [List.range'_succ]

theorem afterFill_visited (init : List Nat) :
    (afterFill init).visited = List.range ROM_size := by
  unfold afterFill
  rw [fillLoop_visited ROM_size _ ROM_size 0 _ rfl, List.range_eq_range']
  rfl

theorem afterSwap_visited (init : List Nat) :
    (afterSwap init).visited = List.range ROM_size := by
  unfold afterSwap
  rw [swapLoop_visited ROM_size _ ROM_size 0 _ rfl, List.range_eq_range']
  rfl

theorem controlLines_values :
    controlLines.map Prod.snd =
      [2 ^ 15, 2 ^ 13, 2 ^ 13, 2 ^ 12, 2 ^ 11, 2 ^ 10, 2 ^ 9, 2 ^ 8, 2 ^ 6, 2 ^ 5, 2 ^ 4,
        2 ^ 3, 2 ^ 2, 2 ^ 1, 2 ^ 0] := by
  decide

/-! ## Claims -/

/-- C1 (as amended): on a little-endian host, for every cell index `i < 65536`
the bytes at offsets `2 * i` and `2 * i + 1` of the stream `main` writes are
`0x12` and `0x34`, in that order. -/
theorem C1_written_bytes (init : List Nat) (outcome : FileOutcome)
    (hlen : init.length = data_size / sizeof_uint16_t) (i : Nat) (hi : i < 65536) :
    (main .little init outcome).written[2 * i]? = some 0x12 ∧
      (main .little init outcome).written[2 * i + 1]? = some 0x34 := by
  have h0 : 2 * i < data_size := by rw [data_size_eq]; omega
  have h1 : 2 * i + 1 < data_size := by rw [data_size_eq]; omega
  rw [written_getElem? .little init outcome hlen _ h0,
    written_getElem? .little init outcome hlen _ h1]
  have e0 : 2 * i % 2 = 0 := by omega
  have e1 : (2 * i + 1) % 2 = 1 := by omega
  rw [e0, e1]
  exact ⟨rfl, rfl⟩

/-- C1, witness: cell 7 of a run started on a zeroed buffer. -/
theorem C1_written_bytes_witness :
    (List.replicate 65536 0).length = data_size / sizeof_uint16_t ∧ 7 < 65536 ∧
      ((main .little (List.replicate 65536 0) .succeeds).written[2 * 7]? = some 0x12 ∧
        (main .little (List.replicate 65536 0) .succeeds).written[2 * 7 + 1]? = some 0x34) :=
  ⟨(List.length_replicate _ _).trans (by decide), by decide,
    C1_written_bytes (List.replicate 65536 0) .succeeds
      ((List.length_replicate _ _).trans (by decide)) 7 (by decide)⟩

/-- C1, counterexample: started on a zeroed buffer of 65536 cells on a
little-endian host, the bytes at offsets 0 and 1 of the written stream are not
`0x34` and `0x12`. -/
theorem C1_counterexample :
    ¬ ((main .little (List.replicate 65536 0) .succeeds).written[2 * 0]? = some 0x34 ∧
        (main .little (List.replicate 65536 0) .succeeds).written[2 * 0 + 1]? = some 0x12) := by
  intro h
  have hlen : (List.replicate 65536 0).length = data_size / sizeof_uint16_t :=
    (List.length_replicate _ _).trans (by decide)
  have h0 : (main .little (List.replicate 65536 0) .succeeds).written[2 * 0]? =
      some (cellByte .little 0x3412 ((2 * 0) % 2)) :=
    written_getElem? .little _ .succeeds hlen (2 * 0) (by decide)
  rw [h0] at h
  exact absurd h.1 (by decide)

/-- C2: on a buffer of `data_size / sizeof(uint16_t)` cells, after the fill loop
and the byte-swap loop every cell `data[i]`, `i < ROM_size`, holds `0x3412`,
which is `REV16_A(0x1234)` converted to `uint16_t`; all cells are equal to one
another after the fill loop (each holds `0x1234`) and after the byte-swap loop. -/
theorem C2_every_cell_swapped_fill (init : List Nat)
    (hlen : init.length = data_size / sizeof_uint16_t) :
    (∀ i, i < ROM_size →
        (afterSwap init).data[i]? = some (toUint16 (REV16_A 0x1234)) ∧
        (afterSwap init).data[i]? = some 0x3412 ∧
        (afterFill init).data[i]? = some 0x1234) ∧
      (∀ i j, i < ROM_size → j < ROM_size →
        (afterFill init).data[i]? = (afterFill init).data[j]? ∧
        (afterSwap init).data[i]? = (afterSwap init).data[j]?) := by
  rw [cells_eq] at hlen
  rw [afterSwap_data init hlen, afterFill_data init hlen]
  have hs : toUint16 (REV16_A 0x1234) = 0x3412 := by decide
  rw [hs]
  refine ⟨fun i hi => ?_, fun i j hi hj => ?_⟩
  · simp [List.getElem?_replicate, hi]
  · simp [List.getElem?_replicate, hi, hj]

/-- C2, witness: a run started on a zeroed buffer of 65536 cells. -/
theorem C2_every_cell_swapped_fill_witness :
    (List.replicate 65536 0).length = data_size / sizeof_uint16_t ∧
      ((∀ i, i < ROM_size →
          (afterSwap (List.replicate 65536 0)).data[i]? = some (toUint16 (REV16_A 0x1234)) ∧
          (afterSwap (List.replicate 65536 0)).data[i]? = some 0x3412 ∧
          (afterFill (List.replicate 65536 0)).data[i]? = some 0x1234) ∧
        (∀ i j, i < ROM_size → j < ROM_size →
          (afterFill (List.replicate 65536 0)).data[i]? =
            (afterFill (List.replicate 65536 0)).data[j]? ∧
          (afterSwap (List.replicate 65536 0)).data[i]? =
            (afterSwap (List.replicate 65536 0)).data[j]?)) :=
  ⟨(List.length_replicate _ _).trans (by decide),
    C2_every_cell_swapped_fill (List.replicate 65536 0)
      ((List.length_replicate _ _).trans (by decide))⟩

/-- C3: whatever the host byte order, the contents of the allocated buffer and
the outcome of the file operations, the stream `main` passes to `file.write` has
exactly 131072 bytes, twice the 65536 cells of the image. -/
theorem C3_written_length (host : Endian) (init : List Nat) (outcome : FileOutcome)
    (hlen : init.length = data_size / sizeof_uint16_t) :
    (main host init outcome).written.length = 131072 ∧
      (afterSwap init).data.length = 65536 ∧
      (main host init outcome).written.length = 2 * (afterSwap init).data.length := by
  rw [cells_eq] at hlen
  rw [main_written, rawBytes_length, afterSwap_data init hlen, List.length_replicate,
    data_size_eq, ROM_size_eq]
  exact ⟨rfl, rfl, rfl⟩

/-- C3, witness: a big-endian host, a buffer of 65536 cells all `0xBEEF`, and a
failing write. -/
theorem C3_written_length_witness :
    (List.replicate 65536 0xBEEF).length = data_size / sizeof_uint16_t ∧
      ((main .big (List.replicate 65536 0xBEEF) .writeFails).written.length = 131072 ∧
        (afterSwap (List.replicate 65536 0xBEEF)).data.length = 65536 ∧
        (main .big (List.replicate 65536 0xBEEF) .writeFails).written.length =
          2 * (afterSwap (List.replicate 65536 0xBEEF)).data.length) :=
  ⟨(List.length_replicate _ _).trans (by decide),
    C3_written_length .big (List.replicate 65536 0xBEEF) .writeFails
      ((List.length_replicate _ _).trans (by decide))⟩

/-- C4: the stored byte swap is self-inverse: for every 16-bit value `v`,
swapping the swapped cell gives `v` back. -/
theorem C4_swap_involutive (v : Nat) (hv : v < 65536) :
    swapCell (swapCell v) = v := by
  have h1 : swapCell v = 256 * (v % 256) + v / 256 := swapCell_eq v hv
  have h2 : swapCell v < 65536 := by omega
  rw [swapCell_eq _ h2, h1]
  omega

/-- C4, witness: the fill value `0x1234`. -/
theorem C4_swap_involutive_witness :
    0x1234 < 65536 ∧ swapCell (swapCell 0x1234) = 0x1234 :=
  ⟨by decide, C4_swap_involutive 0x1234 (by decide)⟩

/-- C5: for every 16-bit value `v`, the value stored by
`data[i] = REV16_A(data[i])` equals `((v << 8) | (v >> 8)) & 0xFFFF` and is below
`2 ^ 16`; in the promoted `int` arithmetic the right shift gives the non-negative
value `v >> 8` (no sign bits), and `v << 8`, like the whole macro value, lies
within the range of a 32-bit signed `int`. -/
theorem C5_stored_value (v : Nat) (hv : v < 65536) :
    toUint16 (REV16_A (v : Int)) = rev16_spec v ∧
      toUint16 (REV16_A (v : Int)) < 2 ^ 16 ∧
      ((v : Int) >>> (8 : Nat) = ((v >>> 8 : Nat) : Int) ∧ 0 ≤ (v : Int) >>> (8 : Nat) ∧
        (v : Int) >>> (8 : Nat) < 256) ∧
      ((v : Int) <<< (8 : Int) = (v : Int) * 256 ∧ INT_MIN ≤ (v : Int) <<< (8 : Int) ∧
        (v : Int) <<< (8 : Int) ≤ INT_MAX) ∧
      (INT_MIN ≤ REV16_A (v : Int) ∧ REV16_A (v : Int) ≤ INT_MAX) := by
  have hs : toUint16 (REV16_A (v : Int)) = swapCell v := rfl
  have hl : ((v : Int) <<< (8 : Int)) = ((v <<< 8 : Nat) : Int) := Int.shiftLeft_coe_nat v 8
  have hr : ((v : Int) >>> (8 : Nat)) = ((v >>> 8 : Nat) : Int) := rfl
  have hrev : REV16_A (v : Int) = (((v <<< 8) ||| (v >>> 8) : Nat) : Int) := by
    unfold REV16_A
    rw [hl, hr]
    rfl
  have h1 : v <<< 8 = v * 256 := by rw [Nat.shiftLeft_eq]
  have h2 : v >>> 8 = v / 256 := by rw [Nat.shiftRight_eq_div_pow]
  have hor : (v <<< 8) ||| (v >>> 8) = 256 * v + v / 256 := or_shifts_eq v hv
  have hmin : INT_MIN = -2147483648 := by decide
  have hmax : INT_MAX = 2147483647 := by decide
  refine ⟨?_, ?_, ⟨hr, ?_, ?_⟩, ⟨?_, ?_, ?_⟩, ?_, ?_⟩
  · rw [hs, swapCell_eq_bits]
    unfold rev16_spec
    exact (Nat.and_pow_two_sub_one_eq_mod _ 16).symm
  · rw [hs, swapCell_eq v hv]
    omega
  · rw [hr]
    exact Int.ofNat_nonneg _
  · rw [hr, h2]
    omega
  · rw [hl, h1]
    push_cast
    rfl
  · rw [hl, h1, hmin]
    omega
  · rw [hl, h1, hmax]
    omega
  · rw [hrev, hor, hmin]
    omega
  · rw [hrev, hor, hmax]
    omega

/-- C5, witness: the value `0xFFFF`, the largest a cell can hold. -/
theorem C5_stored_value_witness :
    0xFFFF < 65536 ∧
      (toUint16 (REV16_A ((0xFFFF : Nat) : Int)) = rev16_spec 0xFFFF ∧
        toUint16 (REV16_A ((0xFFFF : Nat) : Int)) < 2 ^ 16 ∧
        (((0xFFFF : Nat) : Int) >>> (8 : Nat) = ((0xFFFF >>> 8 : Nat) : Int) ∧
          0 ≤ ((0xFFFF : Nat) : Int) >>> (8 : Nat) ∧
          ((0xFFFF : Nat) : Int) >>> (8 : Nat) < 256) ∧
        (((0xFFFF : Nat) : Int) <<< (8 : Int) = ((0xFFFF : Nat) : Int) * 256 ∧
          INT_MIN ≤ ((0xFFFF : Nat) : Int) <<< (8 : Int) ∧
          ((0xFFFF : Nat) : Int) <<< (8 : Int) ≤ INT_MAX) ∧
        (INT_MIN ≤ REV16_A ((0xFFFF : Nat) : Int) ∧
          REV16_A ((0xFFFF : Nat) : Int) ≤ INT_MAX)) :=
  ⟨by decide, C5_stored_value 0xFFFF (by decide)⟩

/-- C6: the result of `main` does not depend on the contents of the freshly
allocated buffer: for any two initial contents of a buffer of
`data_size / sizeof(uint16_t)` cells, the buffer after the fill loop, the byte
stream written to `out.bin` and the whole observable result are the same. -/
theorem C6_output_independent_of_initial_buffer (host : Endian) (outcome : FileOutcome)
    (init₁ init₂ : List Nat)
    (h₁ : init₁.length = data_size / sizeof_uint16_t)
    (h₂ : init₂.length = data_size / sizeof_uint16_t) :
    (afterFill init₁).data = (afterFill init₂).data ∧
      (main host init₁ outcome).written = (main host init₂ outcome).written ∧
      (main host init₁ outcome).file = (main host init₂ outcome).file ∧
      main host init₁ outcome = main host init₂ outcome := by
  rw [cells_eq] at h₁ h₂
  have hf : (afterFill init₁).data = (afterFill init₂).data := by
    rw [afterFill_data init₁ h₁, afterFill_data init₂ h₂]
  have hs : (afterSwap init₁).data = (afterSwap init₂).data := by
    rw [afterSwap_data init₁ h₁, afterSwap_data init₂ h₂]
  have hm : main host init₁ outcome = main host init₂ outcome := by
    simp only [main, hs]
  exact ⟨hf, by rw [hm], by rw [hm], hm⟩

/-- C6, witness: a zeroed buffer against a buffer of `0xFFFF` cells. -/
theorem C6_output_independent_of_initial_buffer_witness :
    (List.replicate 65536 0).length = data_size / sizeof_uint16_t ∧
      (List.replicate 65536 0xFFFF).length = data_size / sizeof_uint16_t ∧
      ((afterFill (List.replicate 65536 0)).data =
          (afterFill (List.replicate 65536 0xFFFF)).data ∧
        (main .little (List.replicate 65536 0) .succeeds).written =
          (main .little (List.replicate 65536 0xFFFF) .succeeds).written ∧
        (main .little (List.replicate 65536 0) .succeeds).file =
          (main .little (List.replicate 65536 0xFFFF) .succeeds).file ∧
        main .little (List.replicate 65536 0) .succeeds =
          main .little (List.replicate 65536 0xFFFF) .succeeds) :=
  ⟨(List.length_replicate _ _).trans (by decide),
    (List.length_replicate _ _).trans (by decide),
    C6_output_independent_of_initial_buffer .little .succeeds
      (List.replicate 65536 0) (List.replicate 65536 0xFFFF)
      ((List.length_replicate _ _).trans (by decide))
      ((List.length_replicate _ _).trans (by decide))⟩

/-- C7: with address width 16, `ROM_size` is `2 ^ 16 = 65536` and `data_size` is
`ROM_size * sizeof(uint16_t) = 131072`; neither the conversion to `unsigned int`
nor the `size_t` product wraps; and the two lines `main` prints carry 65536 and
131072, in that order. -/
theorem C7_sizes (host : Endian) (init : List Nat) (outcome : FileOutcome) :
    ROMaddr_size = 16 ∧ ROM_size = 2 ^ 16 ∧ ROM_size = 65536 ∧
      data_size = ROM_size * sizeof_uint16_t ∧ data_size = 131072 ∧
      pow 2 ROMaddr_size < 2 ^ UINT_BITS ∧
      ROM_size * sizeof_uint16_t < 2 ^ UINT_BITS ∧
      ROM_size * sizeof_uint16_t < 2 ^ SIZE_BITS ∧
      (main host init outcome).stdout =
        ["ROM adress size (bits): 65536", "Size of data (bits): 131072"] := by
  refine ⟨rfl, by decide, by decide, by decide, by decide, by decide, by decide,
    by decide, ?_⟩
  rw [main_stdout, ROM_size_eq, data_size_eq]
  decide

/-- C8: `main` returns 0 whatever the outcome of opening and writing `out.bin`,
prints nothing on standard error, and prints the same two lines on standard
output as a run whose file operations succeed. -/
theorem C8_exit_status_zero (host : Endian) (init : List Nat) (outcome : FileOutcome) :
    (main host init outcome).status = 0 ∧
      (main host init outcome).stderr = [] ∧
      (main host init outcome).stdout = (main host init .succeeds).stdout := by
  refine ⟨?_, ?_, ?_⟩
  · simp only [main]
  · simp only [main]
  · rw [main_stdout, main_stdout]

/-- C9: the stored byte swap exchanges the two bytes of a 16-bit value `v`: the
high byte of the result is the low byte of `v`, and the low byte of the result
is the high byte of `v`. -/
theorem C9_swap_exchanges_bytes (v : Nat) (hv : v < 65536) :
    swapCell v >>> 8 = v &&& 0xFF ∧ swapCell v &&& 0xFF = v >>> 8 := by
  have hand : ∀ x : Nat, x &&& 0xFF = x % 256 := fun x =>
    Nat.and_pow_two_sub_one_eq_mod x 8
  have hshr : ∀ x : Nat, x >>> 8 = x / 256 := fun x => by
    rw [Nat.shiftRight_eq_div_pow]
  rw [hand, hand, hshr, hshr, swapCell_eq v hv]
  omega

/-- C9, witness: the fill value `0x1234`. -/
theorem C9_swap_exchanges_bytes_witness :
    0x1234 < 65536 ∧
      (swapCell 0x1234 >>> 8 = 0x1234 &&& 0xFF ∧ swapCell 0x1234 &&& 0xFF = 0x1234 >>> 8) :=
  ⟨by decide, C9_swap_exchanges_bytes 0x1234 (by decide)⟩

/-- C10 (evaluation of the code): the constants `MI` and `RI` have the same
value `0x2000`, so the fifteen control-line constants are not pairwise distinct. -/
theorem C10_MI_equals_RI :
    MI = RI ∧ MI = 0x2000 ∧ RI = 0x2000 ∧
      ¬ (controlLines.map Prod.snd).Nodup := by
  decide

/-- C11: on a buffer of `data_size / sizeof(uint16_t)` cells, the fill loop and
the byte-swap loop each run their body at the counter values `0, 1, ...,
ROM_size - 1` in this order and at no other: every index accessed is below the
number of cells of the buffer, every index below `ROM_size` is visited exactly
once, each loop ends after `ROM_size` iterations, and no increment of the
counter wraps. -/
theorem C11_loop_accesses_in_bounds (init : List Nat)
    (hlen : init.length = data_size / sizeof_uint16_t) :
    ((afterFill init).visited = List.range ROM_size ∧
        (afterSwap init).visited = List.range ROM_size) ∧
      (∀ i, i ∈ (afterFill init).visited →
        i < data_size / sizeof_uint16_t ∧ i < init.length ∧ i < ROM_size ∧
          (i + 1) % 2 ^ UINT_BITS = i + 1) ∧
      (∀ i, i ∈ (afterSwap init).visited →
        i < data_size / sizeof_uint16_t ∧ i < (afterFill init).data.length ∧ i < ROM_size ∧
          (i + 1) % 2 ^ UINT_BITS = i + 1) ∧
      (∀ i, i < ROM_size →
        (afterFill init).visited.count i = 1 ∧ (afterSwap init).visited.count i = 1) ∧
      ((afterFill init).visited.length = ROM_size ∧
        (afterSwap init).visited.length = ROM_size) ∧
      ((afterFill init).data.length = init.length ∧
        (afterSwap init).data.length = init.length) := by
  have hcells : init.length = ROM_size := hlen.trans cells_eq
  have hR : ROM_size < 2 ^ UINT_BITS := by decide
  have hfl : (afterFill init).data.length = init.length := by
    rw [afterFill_data init hcells, List.length_replicate, hcells]
  have hsl : (afterSwap init).data.length = init.length := by
    rw [afterSwap_data init hcells, List.length_replicate, hcells]
  have hin : ∀ i, i ∈ List.range ROM_size →
      i < data_size / sizeof_uint16_t ∧ i < init.length ∧ i < ROM_size ∧
        (i + 1) % 2 ^ UINT_BITS = i + 1 := by
    intro i hi
    have h : i < ROM_size := List.mem_range.mp hi
    exact ⟨cells_eq ▸ h, hcells ▸ h, h, wrap_succ hR h⟩
  have hc : ∀ i, i < ROM_size → List.count i (List.range ROM_size) = 1 := fun i hi =>
    List.count_eq_one_of_mem (List.nodup_range _) (List.mem_range.mpr hi)
  rw [hfl, afterFill_visited, afterSwap_visited, List.length_range]
  exact ⟨⟨rfl, rfl⟩, hin, hin, fun i hi => ⟨hc i hi, hc i hi⟩, ⟨rfl, rfl⟩, rfl, hsl⟩

/-- C11, witness: a run started on a zeroed buffer of 65536 cells. -/
theorem C11_loop_accesses_in_bounds_witness :
    (List.replicate 65536 0).length = data_size / sizeof_uint16_t ∧
      (((afterFill (List.replicate 65536 0)).visited = List.range ROM_size ∧
          (afterSwap (List.replicate 65536 0)).visited = List.range ROM_size) ∧
        (∀ i, i ∈ (afterFill (List.replicate 65536 0)).visited →
          i < data_size / sizeof_uint16_t ∧ i < (List.replicate 65536 0).length ∧
            i < ROM_size ∧ (i + 1) % 2 ^ UINT_BITS = i + 1) ∧
        (∀ i, i ∈ (afterSwap (List.replicate 65536 0)).visited →
          i < data_size / sizeof_uint16_t ∧
            i < (afterFill (List.replicate 65536 0)).data.length ∧
            i < ROM_size ∧ (i + 1) % 2 ^ UINT_BITS = i + 1) ∧
        (∀ i, i < ROM_size →
          (afterFill (List.replicate 65536 0)).visited.count i = 1 ∧
            (afterSwap (List.replicate 65536 0)).visited.count i = 1) ∧
        ((afterFill (List.replicate 65536 0)).visited.length = ROM_size ∧
          (afterSwap (List.replicate 65536 0)).visited.length = ROM_size) ∧
        ((afterFill (List.replicate 65536 0)).data.length = (List.replicate 65536 0).length ∧
          (afterSwap (List.replicate 65536 0)).data.length =
            (List.replicate 65536 0).length)) :=
  ⟨(List.length_replicate _ _).trans (by decide),
    C11_loop_accesses_in_bounds (List.replicate 65536 0)
      ((List.length_replicate _ _).trans (by decide))⟩

/-- C12: each of the fifteen control-line constants is a single-bit mask of a
16-bit control word: its value is `2 ^ k` for some `k ≤ 15`. -/
theorem C12_single_bit_masks (name : String) (c : Nat)
    (hc : (name, c) ∈ controlLines) :
    ∃ k, k ≤ 15 ∧ c = 2 ^ k := by
  have hmem : c ∈ controlLines.map Prod.snd := List.mem_map.mpr ⟨(name, c), hc, rfl⟩
  rw [controlLines_values] at hmem
  simp only [List.mem_cons, List.mem_singleton, List.not_mem_nil, or_false] at hmem
  rcases hmem with h | h | h | h | h | h | h | h | h | h | h | h | h | h | h <;>
    subst h <;> refine ⟨_, ?_, rfl⟩ <;> decide

/-- C12, witness: the constant `MI`, whose value is `2 ^ 13`. -/
theorem C12_single_bit_masks_witness :
    ("MI", MI) ∈ controlLines ∧ ∃ k, k ≤ 15 ∧ MI = 2 ^ k :=
  ⟨by decide, C12_single_bit_masks "MI" MI (by decide)⟩

end ROMProgrammer
